import Mathlib

/-!
Shallow embedding of `src/main.cpp` (repository tzorake/macos_window).

The repository contains two near-identical variants of one program; they
agree on every definition embedded here (the only difference relevant to
any claim is that the second variant queries the view bounds before the
empty-buffer check in `drawRect`, while the first checks first — neither
order issues a drawing call on the empty path).

Modelling conventions:
  * `std::vector<std::uint32_t>` is `List Nat`, each element `< 2 ^ 32`.
  * `std::vector::resize(n)` keeps the first `n` elements and value-
    initializes (zero-fills) any extension (`resizeVec`).
  * The channel computations in the source use 32-bit `float`:
    `(float)x / gImageWidth * 255` truncated to `uint8_t`.  On the whole
    domain used by the program (`x < 800`, `y < 600`, `x + y < 1399`) the
    float result truncates to exactly `⌊x * 255 / width⌋`, so the
    channels are embedded as Nat floor divisions.
  * Calls issued to the host runtime (Objective-C messages, CoreGraphics
    calls) are embedded as traces: `drawRect` returns the list of
    CoreGraphics calls it issues, `mainTrace` is the sequence of host
    calls `main` performs.  The trace vocabularies include constructors
    for lock and timer operations so their absence is expressible.
-/

/-- `constexpr int gImageWidth = 800;` -/
def gImageWidth : Nat := 800

/-- `constexpr int gImageHeight = 600;` -/
def gImageHeight : Nat := 600

/-- Red channel: `(uint8_t)((float)x / gImageWidth * 255)`; equals the
floor division for every `x` in the loop's domain. -/
def chanR (x : Nat) : Nat := x * 255 / gImageWidth

/-- Green channel: `(uint8_t)((float)y / gImageHeight * 255)`. -/
def chanG (y : Nat) : Nat := y * 255 / gImageHeight

/-- Blue channel: `(uint8_t)((float)(x + y) / (gImageWidth + gImageHeight) * 255)`. -/
def chanB (x y : Nat) : Nat := (x + y) * 255 / (gImageWidth + gImageHeight)

/-- The packed-sample expression `(a << 24) | (r << 16) | (g << 8) | b`
stored into a `std::uint32_t` (hence the reduction mod `2 ^ 32`). -/
def packARGB (a r g b : Nat) : Nat :=
  ((a <<< 24) ||| (r <<< 16) ||| (g <<< 8) ||| b) % 2 ^ 32

/-- The sample the loop body writes at pixel `(x, y)`: alpha is the
constant 255. -/
def pixelAt (x y : Nat) : Nat := packARGB 255 (chanR x) (chanG y) (chanB x y)

/-- `std::vector::resize(n)`: keep the first `n` elements, zero-fill. -/
def resizeVec (l : List Nat) (n : Nat) : List Nat :=
  l.take n ++ List.replicate (n - l.length) 0

/-- One store `gImageData[i] = pixelAt (i % width) (i / width)` at flat
row-major index `i` (out-of-range stores are vacuous: the loop never
makes one, see `loadImageDataAux_eq_flat`). -/
def writePixel (buf : List Nat) (i : Nat) : List Nat :=
  buf.set i (pixelAt (i % gImageWidth) (i / gImageWidth))

/-- The inner loop `for (x = 0; x < gImageWidth; ++x)` of row `y`:
`gImageData[y * gImageWidth + x] = (a << 24) | (r << 16) | (g << 8) | b`. -/
def writeRow (buf : List Nat) (y : Nat) : List Nat :=
  (List.range gImageWidth).foldl
    (fun b x => b.set (y * gImageWidth + x) (pixelAt x y)) buf

/-- The outer loop `for (y = 0; y < gImageHeight; ++y)`. -/
def loadImageDataAux (buf : List Nat) : List Nat :=
  (List.range gImageHeight).foldl writeRow buf

/-- `void loadImageData()`: `gImageData.resize(gImageWidth * gImageHeight);`
followed by the double loop.  The global `gImageData` is passed as
explicit state. -/
def loadImageData (prev : List Nat) : List Nat :=
  loadImageDataAux (resizeVec prev (gImageWidth * gImageHeight))

/-- The gradient image the program computes, as a direct map. -/
def gradientImage : List Nat :=
  (List.range (gImageWidth * gImageHeight)).map
    (fun i => pixelAt (i % gImageWidth) (i / gImageWidth))

/-- The frame-producing operation invoked for a frame index.  In the
source the producer is `loadImageData`, which takes no index at all and
is called exactly once from `main`; the index parameter is therefore
ignored.  (The global buffer argument does not matter either, by
`loadImageData_eq_gradient`.) -/
def produceFrame (_i : Nat) : List Nat := loadImageData []

theorem length_writePixel (buf : List Nat) (i : Nat) :
    (writePixel buf i).length = buf.length := by
  simp [writePixel]

theorem length_foldl_writePixel (n : Nat) :
    ∀ (s : Nat) (buf : List Nat),
      ((List.range' s n).foldl writePixel buf).length = buf.length := by
  induction n with
  | zero => intro s buf; rfl
  | succ n ih =>
      intro s buf
      rw [List.range'_succ, List.foldl_cons, ih, length_writePixel]

theorem getElem?_foldl_writePixel (n : Nat) :
    ∀ (s : Nat) (buf : List Nat) (j : Nat),
      ((List.range' s n).foldl writePixel buf)[j]? =
        if s ≤ j ∧ j < s + n ∧ j < buf.length
        then some (pixelAt (j % gImageWidth) (j / gImageWidth))
        else buf[j]? := by
  induction n with
  | zero =>
      intro s buf j
      rw [if_neg (by omega)]
      rfl
  | succ n ih =>
      intro s buf j
      rw [List.range'_succ, List.foldl_cons, ih, length_writePixel]
      by_cases hj : j = s
      · subst hj
        rw [if_neg (by omega)]
        by_cases hlen : j < buf.length
        · rw [if_pos (by omega), writePixel, List.getElem?_set, if_pos rfl,
            if_pos hlen]
        · rw [if_neg (by omega), writePixel, List.getElem?_set, if_pos rfl,
            if_neg hlen, List.getElem?_eq_none (by omega)]
      · have harr : (s + 1 ≤ j ∧ j < s + 1 + n ∧ j < buf.length) ↔
            (s ≤ j ∧ j < s + (n + 1) ∧ j < buf.length) := by omega
        rw [show (writePixel buf s)[j]? = buf[j]? by
              rw [writePixel, List.getElem?_set_ne (Ne.symm hj)]]
        by_cases hc : s + 1 ≤ j ∧ j < s + 1 + n ∧ j < buf.length
        · rw [if_pos hc, if_pos (harr.mp hc)]
        · rw [if_neg hc, if_neg (fun h => hc (harr.mpr h))]

theorem writeRow_eq_flat (buf : List Nat) (y : Nat) :
    writeRow buf y = (List.range' (y * gImageWidth) gImageWidth).foldl writePixel buf := by
  rw [writeRow, List.range'_eq_map_range, List.foldl_map]
  apply List.foldl_ext
  intro b x hx
  have hx800 : x < gImageWidth := List.mem_range.mp hx
  have hmod : (y * gImageWidth + x) % gImageWidth = x := by
    simp only [gImageWidth] at hx800 ⊢
    omega
  have hdiv : (y * gImageWidth + x) / gImageWidth = y := by
    simp only [gImageWidth] at hx800 ⊢
    omega
  rw [writePixel, hmod, hdiv]

theorem loadImageDataAux_eq_flat (h : Nat) :
    ∀ buf : List Nat, (List.range h).foldl writeRow buf =
      (List.range' 0 (h * gImageWidth)).foldl writePixel buf := by
  induction h with
  | zero =>
      intro buf
      rw [Nat.zero_mul]
      simp only [List.range_zero, List.range'_zero, List.foldl_nil]
  | succ h ih =>
      intro buf
      rw [List.range_succ, List.foldl_append, List.foldl_cons, List.foldl_nil,
        ih, writeRow_eq_flat, ← List.foldl_append]
      have hspan : List.range' 0 (h * gImageWidth) ++
          List.range' (h * gImageWidth) gImageWidth =
          List.range' 0 ((h + 1) * gImageWidth) := by
        have happ := List.range'_append 0 (h * gImageWidth) gImageWidth 1
        simp only [Nat.one_mul, Nat.zero_add] at happ
        rw [happ, Nat.succ_mul, Nat.add_comm]
      rw [hspan]

theorem length_resizeVec (l : List Nat) (n : Nat) : (resizeVec l n).length = n := by
  simp [resizeVec]
  omega

theorem gradientImage_getElem (j : Nat) :
    gradientImage[j]? = if j < gImageWidth * gImageHeight
      then some (pixelAt (j % gImageWidth) (j / gImageWidth)) else none := by
  rw [gradientImage]
  by_cases hj : j < gImageWidth * gImageHeight
  · rw [if_pos hj, List.getElem?_map, List.getElem?_range hj]
    rfl
  · rw [if_neg hj, List.getElem?_eq_none]
    simpa using Nat.le_of_not_lt hj

/-- The result of `loadImageData` is the gradient image, whatever the
previous contents of the global buffer were. -/
theorem loadImageData_eq_gradient (prev : List Nat) :
    loadImageData prev = gradientImage := by
  apply List.ext_getElem?
  intro j
  rw [loadImageData, loadImageDataAux, loadImageDataAux_eq_flat,
    getElem?_foldl_writePixel, gradientImage_getElem, length_resizeVec]
  simp only [gImageWidth, gImageHeight]
  by_cases hj : j < 480000
  · rw [if_pos (by omega), if_pos (by omega)]
  · rw [if_neg (by omega), if_neg (by omega),
      List.getElem?_eq_none (by rw [length_resizeVec]; omega)]

theorem produceFrame_eq (i : Nat) : produceFrame i = gradientImage :=
  loadImageData_eq_gradient []

theorem chanR_lt (x : Nat) (hx : x < gImageWidth) : chanR x < 256 := by
  simp only [chanR, gImageWidth] at *
  omega

theorem chanG_lt (y : Nat) (hy : y < gImageHeight) : chanG y < 256 := by
  simp only [chanG, gImageHeight] at *
  omega

theorem chanB_lt (x y : Nat) (hx : x < gImageWidth) (hy : y < gImageHeight) :
    chanB x y < 256 := by
  simp only [chanB, gImageWidth, gImageHeight] at *
  omega

/-- With in-range channel bytes, the C bit-packing expression is the
positional sum: alpha lands in the most significant byte, then red,
green, blue. -/
theorem packARGB_eq_sum (a r g b : Nat)
    (ha : a < 256) (hr : r < 256) (hg : g < 256) (hb : b < 256) :
    packARGB a r g b = a * 2 ^ 24 + r * 2 ^ 16 + g * 2 ^ 8 + b := by
  rw [packARGB, Nat.shiftLeft_eq, Nat.shiftLeft_eq, Nat.shiftLeft_eq]
  have h1 : a * 2 ^ 24 ||| r * 2 ^ 16 = a * 2 ^ 24 + r * 2 ^ 16 := by
    rw [Nat.mul_comm a (2 ^ 24)]
    exact (Nat.mul_add_lt_is_or (by omega) a).symm
  have h2 : a * 2 ^ 24 + r * 2 ^ 16 ||| g * 2 ^ 8 =
      a * 2 ^ 24 + r * 2 ^ 16 + g * 2 ^ 8 := by
    have hrepr : a * 2 ^ 24 + r * 2 ^ 16 = 2 ^ 16 * (a * 2 ^ 8 + r) := by ring
    rw [hrepr]
    exact (Nat.mul_add_lt_is_or (by omega) (a * 2 ^ 8 + r)).symm
  have h3 : a * 2 ^ 24 + r * 2 ^ 16 + g * 2 ^ 8 ||| b =
      a * 2 ^ 24 + r * 2 ^ 16 + g * 2 ^ 8 + b := by
    have hrepr : a * 2 ^ 24 + r * 2 ^ 16 + g * 2 ^ 8 =
        2 ^ 8 * (a * 2 ^ 16 + r * 2 ^ 8 + g) := by ring
    rw [hrepr]
    exact (Nat.mul_add_lt_is_or (by omega) (a * 2 ^ 16 + r * 2 ^ 8 + g)).symm
  rw [h1, h2, h3, Nat.mod_eq_of_lt (by omega)]

/-- Byte-level reading of one produced sample. -/
theorem pixelAt_spec (x y : Nat) (hx : x < gImageWidth) (hy : y < gImageHeight) :
    pixelAt x y =
        255 * 2 ^ 24 + chanR x * 2 ^ 16 + chanG y * 2 ^ 8 + chanB x y ∧
      pixelAt x y < 2 ^ 32 ∧
      pixelAt x y / 2 ^ 24 = 255 ∧
      pixelAt x y / 2 ^ 16 % 2 ^ 8 = chanR x ∧
      pixelAt x y / 2 ^ 8 % 2 ^ 8 = chanG y ∧
      pixelAt x y % 2 ^ 8 = chanB x y := by
  have hr := chanR_lt x hx
  have hg := chanG_lt y hy
  have hb := chanB_lt x y hx hy
  have hsum := packARGB_eq_sum 255 (chanR x) (chanG y) (chanB x y)
    (by omega) hr hg hb
  rw [pixelAt] at *
  refine ⟨hsum, ?_, ?_, ?_, ?_, ?_⟩ <;> rw [hsum] <;> omega

theorem mem_gradientImage_spec (s : Nat) (hs : s ∈ gradientImage) :
    s < 2 ^ 32 ∧ s / 2 ^ 24 = 255 := by
  rw [gradientImage] at hs
  obtain ⟨j, hj, hpix⟩ := List.mem_map.mp hs
  have hjN : j < gImageWidth * gImageHeight := List.mem_range.mp hj
  have hx : j % gImageWidth < gImageWidth :=
    Nat.mod_lt _ (by simp [gImageWidth])
  have hy : j / gImageWidth < gImageHeight := by
    simp only [gImageWidth, gImageHeight] at hjN ⊢
    omega
  obtain ⟨-, hlt, halpha, -⟩ := pixelAt_spec (j % gImageWidth) (j / gImageWidth) hx hy
  rw [← hpix]
  exact ⟨hlt, halpha⟩

/-- C1: the frame-producing operation (`loadImageData`) yields, for every
frame index, a buffer of exactly `gImageWidth * gImageHeight = 800 * 600`
packed 32-bit samples, and every sample's most significant (alpha) byte
is 255. -/
theorem produceFrame_length_and_alpha (i : Nat) :
    (produceFrame i).length = gImageWidth * gImageHeight ∧
      ∀ s, s ∈ produceFrame i → s < 2 ^ 32 ∧ s / 2 ^ 24 = 255 := by
  rw [produceFrame_eq]
  constructor
  · simp [gradientImage]
  · exact mem_gradientImage_spec

theorem pixelAt_zero_mem : pixelAt 0 0 ∈ produceFrame 0 := by
  rw [produceFrame_eq, gradientImage]
  refine List.mem_map.mpr ⟨0, List.mem_range.mpr (by simp [gImageWidth, gImageHeight]), rfl⟩

/-- Witness for C1: instantiated at frame index 0 and the top-left sample. -/
theorem produceFrame_length_and_alpha_witness :
    pixelAt 0 0 < 2 ^ 32 ∧ pixelAt 0 0 / 2 ^ 24 = 255 :=
  (produceFrame_length_and_alpha 0).2 (pixelAt 0 0) pixelAt_zero_mem

/-- C2 counterexample: the frame operation takes no index, so the frames
"produced for" the distinct indices 0 and 1 are identical, refuting
"frames at distinct indices differ". -/
theorem produceFrame_not_injective : (0 : Nat) ≠ 1 ∧ produceFrame 0 = produceFrame 1 :=
  ⟨by decide, rfl⟩

/-- C2 amended: the animation never advances — the program computes one
static gradient, so the frame produced at any two indices is the same
buffer. -/
theorem produceFrame_constant (i₁ i₂ : Nat) : produceFrame i₁ = produceFrame i₂ := rfl

/-- C4: the producer's output is byte-identical across invocations and
does not depend on the previous contents of the global buffer (the
`resize` + full rewrite overwrite every sample). -/
theorem loadImageData_pure (prev₁ prev₂ : List Nat) :
    loadImageData prev₁ = loadImageData prev₂ := by
  rw [loadImageData_eq_gradient, loadImageData_eq_gradient]

/-- `NSRect` (doubles embedded as rationals). -/
structure NSRect where
  x : ℚ
  y : ℚ
  width : ℚ
  height : ℚ
deriving DecidableEq

/-- One call issued to the CoreGraphics drawing subsystem by `drawRect`.
`lockAcquire` / `lockRelease` are vocabulary for a mutual-exclusion lock
(the source issues none). -/
inductive DrawStep where
  | createColorSpace
  | saveGState
  | translateCTM (tx ty : ℚ)
  | scaleCTM (sx sy : ℚ)
  | createDataProvider (data : List Nat) (size : Nat)
  | createImage (w h bpc bpp stride : Nat) (alphaFirst byteOrder32Big : Bool)
  | drawImage (x y w h : ℚ)
  | releaseImage
  | releaseDataProvider
  | releaseColorSpace
  | restoreGState
  | lockAcquire
  | lockRelease
deriving DecidableEq

/-- `void drawRect(id self, SEL _cmd, NSRect rect)`: the sequence of
CoreGraphics calls issued, given the current global buffer, the view's
`bounds`, and whether `CGImageCreate` returned a non-null image
(`imageCreateOk`).  The empty-buffer check `if (gImageData.empty())
return;` guards everything (in the second source variant the `bounds`
message is sent first, but that is a view query, not a drawing call).
`createDataProvider` carries the buffer itself: the source hands
`gImageData.data()` to `CGDataProviderCreateWithData`, so the image is
built over the buffer's backing store with no pixel copy. -/
def drawRect (buf : List Nat) (bounds : NSRect) (imageCreateOk : Bool) :
    List DrawStep :=
  if buf.isEmpty then []
  else
    [DrawStep.createColorSpace, DrawStep.saveGState,
     DrawStep.translateCTM 0 bounds.height, DrawStep.scaleCTM 1 (-1),
     DrawStep.createDataProvider buf (gImageWidth * gImageHeight * 4),
     DrawStep.createImage gImageWidth gImageHeight 8 32 (gImageWidth * 4) true true]
    ++ (if imageCreateOk then
          [DrawStep.drawImage 0 0 bounds.width bounds.height,
           DrawStep.releaseImage]
        else [])
    ++ [DrawStep.releaseDataProvider, DrawStep.releaseColorSpace,
        DrawStep.restoreGState]

/-- One host-runtime call issued by `main`.  `scheduleTimer`,
`lockAcquire` and `lockRelease` are vocabulary for timer and lock
operations (the source issues none). -/
inductive HostCall where
  | loadImage
  | sharedApplication
  | setActivationPolicy (policy : Nat)
  | mainScreen
  | screenFrame
  | allocWindow
  | initWindow (rect : NSRect) (styleMask backing : Nat) (deferFlag : Bool)
  | stringWithUTF8 (s : String)
  | setTitle
  | defineClass (base sub : String)
  | addMethod (selector typeEncoding : String)
  | registerClass
  | allocDelegate
  | initDelegate
  | setDelegate
  | contentView
  | viewBounds
  | allocView
  | initView
  | setContentView
  | setNeedsDisplay (flag : Bool)
  | makeKeyAndOrderFront
  | scheduleTimer (interval : ℚ)
  | lockAcquire
  | lockRelease
  | run
deriving DecidableEq

/-- `Titled | Closable | Miniaturizable | Resizable`. -/
def styleMask : Nat := (1 <<< 0) ||| (1 <<< 1) ||| (1 <<< 2) ||| (1 <<< 3)

/-- The window content rectangle `main` computes: centred on the screen,
sized to the image. -/
def mkWindowRect (screen : NSRect) : NSRect :=
  ⟨(screen.width - (gImageWidth : ℚ)) / 2, (screen.height - (gImageHeight : ℚ)) / 2,
    (gImageWidth : ℚ), (gImageHeight : ℚ)⟩

/-- The straight-line sequence of host-runtime calls `int main()` makes,
from `loadImageData()` through `[application run]`. -/
def mainTrace (screen : NSRect) : List HostCall :=
  [HostCall.loadImage,
   HostCall.sharedApplication,
   HostCall.setActivationPolicy 0,
   HostCall.mainScreen,
   HostCall.screenFrame,
   HostCall.allocWindow,
   HostCall.initWindow (mkWindowRect screen) styleMask 2 false,
   HostCall.stringWithUTF8 "C++ macOS Window with Image",
   HostCall.setTitle,
   HostCall.defineClass "NSObject" "WindowDelegate",
   HostCall.addMethod "windowShouldClose:" "c@:@",
   HostCall.registerClass,
   HostCall.allocDelegate,
   HostCall.initDelegate,
   HostCall.setDelegate,
   HostCall.contentView,
   HostCall.viewBounds,
   HostCall.defineClass "NSView" "ContentView",
   HostCall.addMethod "drawRect:" "v@:\x7bCGRect=\x7bCGPoint=dd\x7d\x7bCGSize=dd\x7d\x7d",
   HostCall.registerClass,
   HostCall.allocView,
   HostCall.initView,
   HostCall.setContentView,
   HostCall.setNeedsDisplay true,
   HostCall.makeKeyAndOrderFront,
   HostCall.run]

def isTimerCall : HostCall → Bool
  | HostCall.scheduleTimer _ => true
  | _ => false

def isLockCall : HostCall → Bool
  | HostCall.lockAcquire => true
  | HostCall.lockRelease => true
  | _ => false

def isLoadImageCall : HostCall → Bool
  | HostCall.loadImage => true
  | _ => false

def isDrawLockStep : DrawStep → Bool
  | DrawStep.lockAcquire => true
  | DrawStep.lockRelease => true
  | _ => false

def isDrawImageStep : DrawStep → Bool
  | DrawStep.drawImage _ _ _ _ => true
  | _ => false

/-- One call made by the window-delegate close handler. -/
inductive CloseCall where
  | sharedApplication
  | terminate
deriving DecidableEq

/-- `BOOL windowShouldClose(id self, SEL _cmd, id sender)`: the calls it
makes (fetch the shared application, send `terminate:`) and its return
value `YES`.  The sender is ignored by the source. -/
def windowShouldClose (_sender : Nat) : List CloseCall × Bool :=
  ([CloseCall.sharedApplication, CloseCall.terminate], true)

/-- C3 counterexample: on a concrete 1920×1080 screen, the sequence of
host-runtime calls `main` issues contains no timer-scheduling call at
all — nothing ever re-invokes the frame producer. -/
theorem mainTrace_no_timer :
    (mainTrace ⟨0, 0, 1920, 1080⟩).filter isTimerCall = [] := rfl

/-- C3 amended: `main` invokes the frame producer (`loadImageData`)
exactly once, directly, as its first action, and schedules no timer
before entering the blocking event loop (`run`, the final call). -/
theorem mainTrace_load_once_no_timer (screen : NSRect) :
    (mainTrace screen).countP isTimerCall = 0 ∧
      (mainTrace screen).countP isLoadImageCall = 1 ∧
      (mainTrace screen).head? = some HostCall.loadImage ∧
      (mainTrace screen).getLast? = some HostCall.run :=
  ⟨rfl, rfl, rfl, rfl⟩

/-- C5: when the shared buffer is empty, `drawRect` returns before
issuing a single drawing call, for any view bounds and any
image-creation outcome (the source path reads no state other than the
buffer emptiness check and mutates nothing). -/
theorem drawRect_empty_noop (buf : List Nat) (bounds : NSRect) (ok : Bool)
    (h : buf = []) : drawRect buf bounds ok = [] := by
  subst h
  rfl

/-- Witness for C5: the empty buffer with concrete 800×600 bounds. -/
theorem drawRect_empty_noop_witness : drawRect [] ⟨0, 0, 800, 600⟩ true = [] :=
  drawRect_empty_noop [] ⟨0, 0, 800, 600⟩ true rfl

/-- C7: with a non-empty buffer, the paint path builds its data provider
over the shared buffer itself (zero-copy: the provider carries `buf`, no
transformed copy) with byte size `width * height * 4`, and creates the
image descriptor with dimensions 800×600, 8 bits per component, 32 bits
per pixel and row stride `width * 4` bytes. -/
theorem drawRect_zero_copy_descriptor (buf : List Nat) (bounds : NSRect)
    (ok : Bool) (h : buf ≠ []) :
    DrawStep.createDataProvider buf (gImageWidth * gImageHeight * 4) ∈
        drawRect buf bounds ok ∧
      DrawStep.createImage gImageWidth gImageHeight 8 32 (gImageWidth * 4)
          true true ∈ drawRect buf bounds ok := by
  rcases buf with _ | ⟨a, t⟩
  · exact absurd rfl h
  · constructor <;> · rw [drawRect] ; simp

/-- Witness for C7: a one-sample buffer and concrete bounds. -/
theorem drawRect_zero_copy_descriptor_witness :
    DrawStep.createDataProvider [0] (gImageWidth * gImageHeight * 4) ∈
        drawRect [0] ⟨0, 0, 800, 600⟩ true ∧
      DrawStep.createImage gImageWidth gImageHeight 8 32 (gImageWidth * 4)
          true true ∈ drawRect [0] ⟨0, 0, 800, 600⟩ true :=
  drawRect_zero_copy_descriptor [0] ⟨0, 0, 800, 600⟩ true (by decide)

/-- C8: on the non-empty path (with image creation succeeding), the
trace is exactly: colour-space and state setup, translate by the view
bounds height, scale the vertical axis by −1, build provider and image,
then a single scaled blit of the full source image into
`(0, 0, bounds.width, bounds.height)`, followed by releases; in
particular exactly one draw call is issued. -/
theorem drawRect_flip_then_single_blit (buf : List Nat) (bounds : NSRect)
    (h : buf ≠ []) :
    drawRect buf bounds true =
        [DrawStep.createColorSpace, DrawStep.saveGState,
         DrawStep.translateCTM 0 bounds.height, DrawStep.scaleCTM 1 (-1),
         DrawStep.createDataProvider buf (gImageWidth * gImageHeight * 4),
         DrawStep.createImage gImageWidth gImageHeight 8 32 (gImageWidth * 4)
           true true,
         DrawStep.drawImage 0 0 bounds.width bounds.height,
         DrawStep.releaseImage, DrawStep.releaseDataProvider,
         DrawStep.releaseColorSpace, DrawStep.restoreGState] ∧
      (drawRect buf bounds true).countP isDrawImageStep = 1 := by
  rcases buf with _ | ⟨a, t⟩
  · exact absurd rfl h
  · exact ⟨rfl, rfl⟩

/-- Witness for C8: a one-sample buffer and concrete bounds. -/
theorem drawRect_flip_then_single_blit_witness :
    drawRect [0] ⟨0, 0, 800, 600⟩ true =
        [DrawStep.createColorSpace, DrawStep.saveGState,
         DrawStep.translateCTM 0 600, DrawStep.scaleCTM 1 (-1),
         DrawStep.createDataProvider [0] (gImageWidth * gImageHeight * 4),
         DrawStep.createImage gImageWidth gImageHeight 8 32 (gImageWidth * 4)
           true true,
         DrawStep.drawImage 0 0 800 600,
         DrawStep.releaseImage, DrawStep.releaseDataProvider,
         DrawStep.releaseColorSpace, DrawStep.restoreGState] ∧
      (drawRect [0] ⟨0, 0, 800, 600⟩ true).countP isDrawImageStep = 1 :=
  drawRect_flip_then_single_blit [0] ⟨0, 0, 800, 600⟩ (by decide)

/-- C9 counterexample: no mutual-exclusion lock exists — on concrete
inputs, neither the producer path (`main`, which performs the only
buffer write) nor the paint path acquires or releases any lock. -/
theorem no_lock_in_traces :
    (mainTrace ⟨0, 0, 1920, 1080⟩).filter isLockCall = [] ∧
      (drawRect [0] ⟨0, 0, 800, 600⟩ true).filter isDrawLockStep = [] :=
  ⟨rfl, rfl⟩

/-- C9 amended: the source contains no lock at all; the shared buffer is
written exactly once, by `main`'s direct `loadImageData()` call issued
before the event loop starts, and the paint path performs no lock
operation for any buffer, bounds, or image-creation outcome. -/
theorem no_lock_single_publish (screen : NSRect) (buf : List Nat)
    (bounds : NSRect) (ok : Bool) :
    (mainTrace screen).filter isLockCall = [] ∧
      (drawRect buf bounds ok).filter isDrawLockStep = [] ∧
      (mainTrace screen).countP isLoadImageCall = 1 ∧
      (mainTrace screen).head? = some HostCall.loadImage ∧
      (mainTrace screen).getLast? = some HostCall.run := by
  refine ⟨rfl, ?_, rfl, rfl, rfl⟩
  rcases buf with _ | ⟨a, t⟩
  · rfl
  · cases ok <;> rfl

/-- C10: for every sender, the close handler fetches the shared
application object, sends it `terminate:`, and returns `YES` — it never
refuses the close. -/
theorem windowShouldClose_always_terminates (sender : Nat) :
    windowShouldClose sender =
      ([CloseCall.sharedApplication, CloseCall.terminate], true) := rfl

/-- C6: every sample the producer writes at an in-range pixel `(x, y)`
is packed as `(a << 24) | (r << 16) | (g << 8) | b` with alpha in the
most significant byte: equivalently the positional sum with alpha 255,
and each byte reads back the raw (non-premultiplied) channel value. -/
theorem produced_sample_layout (prev : List Nat) (x y : Nat)
    (hx : x < gImageWidth) (hy : y < gImageHeight) :
    (loadImageData prev)[y * gImageWidth + x]? = some (pixelAt x y) ∧
      pixelAt x y =
        255 * 2 ^ 24 + chanR x * 2 ^ 16 + chanG y * 2 ^ 8 + chanB x y ∧
      pixelAt x y / 2 ^ 24 = 255 ∧
      pixelAt x y / 2 ^ 16 % 2 ^ 8 = chanR x ∧
      pixelAt x y / 2 ^ 8 % 2 ^ 8 = chanG y ∧
      pixelAt x y % 2 ^ 8 = chanB x y := by
  obtain ⟨hsum, -, halpha, hr, hg, hb⟩ := pixelAt_spec x y hx hy
  refine ⟨?_, hsum, halpha, hr, hg, hb⟩
  rw [loadImageData_eq_gradient, gradientImage_getElem]
  have hmod : (y * gImageWidth + x) % gImageWidth = x := by
    simp only [gImageWidth] at hx ⊢
    omega
  have hdiv : (y * gImageWidth + x) / gImageWidth = y := by
    simp only [gImageWidth] at hx ⊢
    omega
  rw [if_pos (by simp only [gImageWidth, gImageHeight] at hx hy ⊢; omega),
    hmod, hdiv]

/-- Witness for C6: the top-left pixel of a fresh buffer. -/
theorem produced_sample_layout_witness :
    (loadImageData [])[0 * gImageWidth + 0]? = some (pixelAt 0 0) ∧
      pixelAt 0 0 =
        255 * 2 ^ 24 + chanR 0 * 2 ^ 16 + chanG 0 * 2 ^ 8 + chanB 0 0 ∧
      pixelAt 0 0 / 2 ^ 24 = 255 ∧
      pixelAt 0 0 / 2 ^ 16 % 2 ^ 8 = chanR 0 ∧
      pixelAt 0 0 / 2 ^ 8 % 2 ^ 8 = chanG 0 ∧
      pixelAt 0 0 % 2 ^ 8 = chanB 0 0 :=
  produced_sample_layout [] 0 0 (by decide) (by decide)
